import Mathlib

set_option maxHeartbeats 1000000

/-!
Shallow embedding of `minesweeper.py`.

The Python program keeps, per cell, a flag state (`Flag` / `NoFlag`), a click
state (`UnclikedState` / `ClickedState`) and the cell's class
(`BombCell` / `PlainCell` / `EmptyPlainCell`).  We embed a cell as a record of
a kind and two booleans.  The board's `_cells` dictionary becomes a total
function on `Int × Int`; the constructor fills every in-grid coordinate, and
every operation validates its coordinate before any lookup, so values of the
function outside the populated keys are never observed.  Raising
`InvalidCellException` becomes returning `Except.error` with the exact message
the Python code formats.
-/

/-- The class of a cell: `BombCell`, `EmptyPlainCell` (counter 0, propagates
clicks), or `PlainCell` with a positive neighbour-bomb counter. -/
inductive CellKind where
  | bomb : CellKind
  | empty : CellKind
  | numbered : Nat → CellKind
deriving DecidableEq, Repr

/-- A cell: its kind together with the flag state (`_flag = Flag`) and the
click state (`_clicked = ClickedState`). -/
structure Cell where
  kind : CellKind
  flagged : Bool
  clicked : Bool
deriving DecidableEq, Repr

/-- `get_content` of the three cell classes: `"B"` for a bomb,
`str(self._counter)` for plain cells (an `EmptyPlainCell` has counter 0). -/
def Cell.get_content (c : Cell) : String :=
  match c.kind with
  | CellKind.bomb => "B"
  | CellKind.empty => toString (0 : Nat)
  | CellKind.numbered n => toString n

/-- `Cell.render`: a clicked cell shows its content, an unclicked cell shows
its flag (`"F"` or a blank). -/
def Cell.render (c : Cell) : String :=
  if c.clicked then c.get_content
  else if c.flagged then "F" else " "

/-- The board: dimensions and the cell map (`_cells`). -/
structure Board where
  rows : Nat
  columns : Nat
  cells : Int × Int → Cell

/-- `Board.is_valid_row`: `0 <= row and row < self.rows`. -/
def Board.is_valid_row (b : Board) (row : Int) : Bool :=
  decide (0 ≤ row ∧ row < (b.rows : Int))

/-- `Board.is_valid_column`: `0 <= column and column < self.columns`. -/
def Board.is_valid_column (b : Board) (column : Int) : Bool :=
  decide (0 ≤ column ∧ column < (b.columns : Int))

/-- The neighbour set of `_get_neighbors`, as a function of the dimensions:
the 3×3 block around `(row, column)` minus invalid coordinates and the centre.
Python builds a `set`; the nine generated pairs are pairwise distinct, so we
keep them as a duplicate-free list in generator order. -/
def neighbors_list (rows columns : Nat) (row column : Int) : List (Int × Int) :=
  (([row - 1, row, row + 1]).product [column - 1, column, column + 1]).filter
    (fun p => decide (0 ≤ p.1 ∧ p.1 < (rows : Int)) &&
      decide (0 ≤ p.2 ∧ p.2 < (columns : Int)) && decide (p ≠ (row, column)))

/-- `Board._get_neighbors`. -/
def Board.get_neighbors (b : Board) (row column : Int) : List (Int × Int) :=
  neighbors_list b.rows b.columns row column

/-- `PlainCellFactory.build_plain_cell`: counter 0 yields an `EmptyPlainCell`,
anything else a `PlainCell` with that counter.  Fresh cells are unflagged and
unclicked (`Cell.__init__`). -/
def build_plain_cell (counter : Nat) : Cell :=
  if counter = 0 then { kind := CellKind.empty, flagged := false, clicked := false }
  else { kind := CellKind.numbered counter, flagged := false, clicked := false }

/-- The cell map built by `Board._place_bombs`: every bomb position holds a
fresh `BombCell` (the `update` overriding the plain cell built there), every
other coordinate the plain cell whose counter is the number of its neighbours
that are bomb positions. -/
def Board.place_bombs (rows columns : Nat) (bombs_positions : Finset (Int × Int)) :
    Int × Int → Cell :=
  fun p =>
    if p ∈ bombs_positions then { kind := CellKind.bomb, flagged := false, clicked := false }
    else build_plain_cell
      ((neighbors_list rows columns p.1 p.2).countP (fun q => decide (q ∈ bombs_positions)))

/-- `Board.__init__` with a placer that returned `bombs_positions`. -/
def Board.make (rows columns : Nat) (bombs_positions : Finset (Int × Int)) : Board :=
  { rows := rows, columns := columns,
    cells := Board.place_bombs rows columns bombs_positions }

/-- Replace the cell stored at one coordinate (a cell mutating itself, seen
from the board). -/
def Board.set_cell (b : Board) (p : Int × Int) (c : Cell) : Board :=
  { b with cells := fun q => if q = p then c else b.cells q }

/-- The in-grid coordinates `[0, rows) × [0, columns)` as a finite set. -/
def Board.grid (b : Board) : Finset (Int × Int) :=
  ((Finset.range b.rows) ×ˢ (Finset.range b.columns)).image
    (fun p => ((p.1 : Int), (p.2 : Int)))

/-- Number of in-grid cells still unclicked; the fuel for the cascade. -/
def Board.unclicked_count (b : Board) : Nat :=
  (b.grid.filter (fun p => (b.cells p).clicked = false)).card

/-- The click cascade, fuelled.  One step is `Board.click` after a successful
validation: a flagged cell ignores the click (`Flag.click`), a clicked cell
ignores it (`ClickedState.click`), otherwise the cell becomes clicked and
propagates — an `EmptyPlainCell` clicks every neighbour in turn
(`EmptyPlainCell.click_neighbors`), other kinds do nothing.  During the
cascade every visited coordinate is a valid neighbour, so the validity guard
always passes there; the fuel only cuts recursion an actual run never
reaches (`click_fuel_stable` below shows any fuel `≥ unclicked_count` gives
the same result). -/
def click_fuel : Nat → Board → Int → Int → Board
  | 0, b, _, _ => b
  | fuel + 1, b, row, column =>
    if b.is_valid_row row && b.is_valid_column column then
      if (b.cells (row, column)).flagged then b
      else if (b.cells (row, column)).clicked then b
      else
        let b1 := b.set_cell (row, column)
          { kind := (b.cells (row, column)).kind,
            flagged := (b.cells (row, column)).flagged, clicked := true }
        if (b.cells (row, column)).kind = CellKind.empty then
          (b.get_neighbors row column).foldl (fun bb q => click_fuel fuel bb q.1 q.2) b1
        else b1
    else b

/-- The Python `%s`-formatted message of a row validation failure. -/
def row_error_message (row : Int) (rows : Nat) : String :=
  "Row " ++ toString row ++ " is not in range [0, " ++ toString rows ++ ")"

/-- The Python `%s`-formatted message of a column validation failure. -/
def column_error_message (column : Int) (columns : Nat) : String :=
  "Column " ++ toString column ++ " is not in range [0, " ++ toString columns ++ ")"

/-- `Board._validate_cell`: checks the row first, then the column, raising
`InvalidCellException` with the corresponding message. -/
def Board.validate_cell (b : Board) (row column : Int) : Except String Unit :=
  if !(b.is_valid_row row) then Except.error (row_error_message row b.rows)
  else if !(b.is_valid_column column) then
    Except.error (column_error_message column b.columns)
  else Except.ok ()

/-- `Board.click`: validate, then run the cascade on the addressed cell. -/
def Board.click (b : Board) (row column : Int) : Except String Board :=
  match b.validate_cell row column with
  | Except.error e => Except.error e
  | Except.ok _ => Except.ok (click_fuel b.unclicked_count b row column)

/-- `Board.put_flag`: validate, then `Cell.put_flag` — a no-op on a clicked
cell (`ClickedState.put_flag`), otherwise the flag is set
(`UnclikedState.put_flag`). -/
def Board.put_flag (b : Board) (row column : Int) : Except String Board :=
  match b.validate_cell row column with
  | Except.error e => Except.error e
  | Except.ok _ =>
    if (b.cells (row, column)).clicked then Except.ok b
    else Except.ok (b.set_cell (row, column)
      { kind := (b.cells (row, column)).kind, flagged := true,
        clicked := (b.cells (row, column)).clicked })

/-- `Board.remove_flag`: validate, then `Cell.remove_flag`, which always
resets the flag to `NoFlag`. -/
def Board.remove_flag (b : Board) (row column : Int) : Except String Board :=
  match b.validate_cell row column with
  | Except.error e => Except.error e
  | Except.ok _ =>
    Except.ok (b.set_cell (row, column)
      { kind := (b.cells (row, column)).kind, flagged := false,
        clicked := (b.cells (row, column)).clicked })

/-- One public board operation, for reasoning about call sequences. -/
inductive BoardOp where
  | click : Int → Int → BoardOp
  | put_flag : Int → Int → BoardOp
  | remove_flag : Int → Int → BoardOp

/-- Apply one operation; a raised `InvalidCellException` leaves the board
unchanged (Python raises before touching any cell). -/
def Board.apply_op (b : Board) (op : BoardOp) : Board :=
  match op with
  | BoardOp.click r c =>
    match b.click r c with
    | Except.ok b1 => b1
    | Except.error _ => b
  | BoardOp.put_flag r c =>
    match b.put_flag r c with
    | Except.ok b1 => b1
    | Except.error _ => b
  | BoardOp.remove_flag r c =>
    match b.remove_flag r c with
    | Except.ok b1 => b1
    | Except.error _ => b

/-- Apply a sequence of operations in order. -/
def Board.run_ops (b : Board) (ops : List BoardOp) : Board :=
  ops.foldl Board.apply_op b

/-- `Board.__iter__`: the `(row, column, cell)` triples produced by the nested
`range` loops, in row-major order. -/
def Board.to_triples (b : Board) : List (Int × Int × Cell) :=
  (List.range b.rows).flatMap (fun (row : Nat) => (List.range b.columns).map
    (fun (col : Nat) => ((row : Int), (col : Int), b.cells ((row : Int), (col : Int)))))

/-- Number of in-grid cells whose kind is `Bomb`. -/
def Board.bomb_count (b : Board) : Nat :=
  (b.grid.filter (fun p => (b.cells p).kind = CellKind.bomb)).card

/-- What a click cascade preserves: the dimensions, every cell's kind and
flag, and monotonically the clicked state. -/
def Evolves (b b' : Board) : Prop :=
  b'.rows = b.rows ∧ b'.columns = b.columns ∧
    ∀ p, (b'.cells p).kind = (b.cells p).kind ∧
      (b'.cells p).flagged = (b.cells p).flagged ∧
      ((b.cells p).clicked = true → (b'.cells p).clicked = true)

/-- What the flag operations preserve: the dimensions and every cell's kind
and clicked state. -/
def FlagOnly (b b' : Board) : Prop :=
  b'.rows = b.rows ∧ b'.columns = b.columns ∧
    ∀ p, (b'.cells p).kind = (b.cells p).kind ∧
      (b'.cells p).clicked = (b.cells p).clicked

/-- What every public operation preserves: the dimensions and every cell's
kind. -/
def SameKinds (b b' : Board) : Prop :=
  b'.rows = b.rows ∧ b'.columns = b.columns ∧
    ∀ p, (b'.cells p).kind = (b.cells p).kind

/-- The implicit invariant of claim C10: a revealed cell is never flagged. -/
def RevealedUnflagged (b : Board) : Prop :=
  ∀ p, (b.cells p).clicked = true → (b.cells p).flagged = false

/-- No cell of the board is flagged. -/
def NoFlags (b : Board) : Prop :=
  ∀ p, (b.cells p).flagged = false

/-- The flood invariant: every revealed empty cell outside the excused set
`S` already has all of its neighbours revealed. -/
def ClosedExcept (b : Board) (S : Set (Int × Int)) : Prop :=
  ∀ p, p ∉ S → (b.cells p).clicked = true → (b.cells p).kind = CellKind.empty →
    ∀ q ∈ b.get_neighbors p.1 p.2, (b.cells q).clicked = true

/-- One hop of the empty-region flood: from an empty cell to an empty
neighbour. -/
def EmptyStep (b : Board) (p q : Int × Int) : Prop :=
  (b.cells p).kind = CellKind.empty ∧ (b.cells q).kind = CellKind.empty ∧
    q ∈ b.get_neighbors p.1 p.2

/-- The connected empty region of a coordinate: reflexive-transitive closure
of `EmptyStep` (8-neighbour adjacency through empty cells). -/
def EmptyReach (b : Board) (p q : Int × Int) : Prop :=
  Relation.ReflTransGen (EmptyStep b) p q

/-- The claim's independent brute-force description of a neighbourhood:
in-grid coordinates other than `p` within Chebyshev distance 1. -/
def spec_neighborhood (b : Board) (p : Int × Int) : Finset (Int × Int) :=
  b.grid.filter (fun q =>
    q ≠ p ∧ (q.1 - p.1).natAbs ≤ 1 ∧ (q.2 - p.2).natAbs ≤ 1)

/-! ### Basic lemmas -/

theorem Board.mem_grid (b : Board) (p : Int × Int) :
    p ∈ b.grid ↔ 0 ≤ p.1 ∧ p.1 < (b.rows : Int) ∧ 0 ≤ p.2 ∧ p.2 < (b.columns : Int) := by
  obtain ⟨x, y⟩ := p
  simp only [Board.grid, Finset.mem_image, Finset.mem_product, Finset.mem_range, Prod.exists,
    Prod.mk.injEq]
  constructor
  · rintro ⟨a, c, ⟨ha, hc⟩, hx, hy⟩
    omega
  · rintro ⟨h1, h2, h3, h4⟩
    exact ⟨x.toNat, y.toNat, ⟨by omega, by omega⟩, by omega, by omega⟩

theorem valid_mem_grid (b : Board) (row column : Int)
    (h : (b.is_valid_row row && b.is_valid_column column) = true) : (row, column) ∈ b.grid := by
  rw [Board.mem_grid]
  simp only [Bool.and_eq_true, Board.is_valid_row, Board.is_valid_column,
    decide_eq_true_eq] at h
  exact ⟨h.1.1, h.1.2, h.2.1, h.2.2⟩

theorem evolves_refl (b : Board) : Evolves b b :=
  ⟨rfl, rfl, fun _ => ⟨rfl, rfl, fun h => h⟩⟩

theorem evolves_trans {a b c : Board} (h1 : Evolves a b) (h2 : Evolves b c) : Evolves a c := by
  refine ⟨h2.1.trans h1.1, h2.2.1.trans h1.2.1, fun p => ?_⟩
  obtain ⟨k1, f1, c1⟩ := h1.2.2 p
  obtain ⟨k2, f2, c2⟩ := h2.2.2 p
  exact ⟨k2.trans k1, f2.trans f1, fun h => c2 (c1 h)⟩

theorem grid_eq_of_evolves {b b' : Board} (h : Evolves b b') : b'.grid = b.grid := by
  unfold Board.grid
  rw [h.1, h.2.1]

theorem unclicked_le_of_evolves {b b' : Board} (h : Evolves b b') :
    b'.unclicked_count ≤ b.unclicked_count := by
  unfold Board.unclicked_count
  rw [grid_eq_of_evolves h]
  apply Finset.card_le_card
  intro p hp
  simp only [Finset.mem_filter] at hp ⊢
  refine ⟨hp.1, ?_⟩
  cases hbc : (b.cells p).clicked with
  | false => rfl
  | true => rw [(h.2.2 p).2.2 hbc] at hp; exact absurd hp.2 (by simp)

theorem evolves_set_clicked (b : Board) (p : Int × Int) :
    Evolves b (b.set_cell p
      { kind := (b.cells p).kind, flagged := (b.cells p).flagged, clicked := true }) := by
  refine ⟨rfl, rfl, fun q => ?_⟩
  by_cases hq : q = p
  · subst hq
    simp [Board.set_cell]
  · simp [Board.set_cell, hq]

theorem evolves_foldl (f : Board → Int × Int → Board)
    (hf : ∀ bb q, Evolves bb (f bb q)) :
    ∀ (l : List (Int × Int)) (bb : Board), Evolves bb (l.foldl f bb) := by
  intro l
  induction l with
  | nil => intro bb; exact evolves_refl bb
  | cons q l ih => intro bb; exact evolves_trans (hf bb q) (ih (f bb q))

theorem evolves_click_fuel : ∀ (fuel : Nat) (b : Board) (row column : Int),
    Evolves b (click_fuel fuel b row column) := by
  intro fuel
  induction fuel with
  | zero => intro b row column; exact evolves_refl b
  | succ fuel ih =>
    intro b row column
    simp only [click_fuel]
    by_cases hv : (b.is_valid_row row && b.is_valid_column column) = true
    · rw [if_pos hv]
      by_cases hf : (b.cells (row, column)).flagged = true
      · rw [if_pos hf]; exact evolves_refl b
      · rw [if_neg hf]
        by_cases hc : (b.cells (row, column)).clicked = true
        · rw [if_pos hc]; exact evolves_refl b
        · rw [if_neg hc]
          by_cases hk : (b.cells (row, column)).kind = CellKind.empty
          · rw [if_pos hk]
            exact evolves_trans (evolves_set_clicked b (row, column))
              (evolves_foldl _ (fun bb q => ih bb q.1 q.2) _ _)
          · rw [if_neg hk]
            exact evolves_set_clicked b (row, column)
    · rw [if_neg hv]; exact evolves_refl b

theorem unclicked_count_set_clicked (b : Board) (p : Int × Int)
    (hp : p ∈ b.grid) (hc : (b.cells p).clicked = false) :
    (b.set_cell p
      { kind := (b.cells p).kind, flagged := (b.cells p).flagged,
        clicked := true }).unclicked_count + 1 = b.unclicked_count := by
  unfold Board.unclicked_count
  have hgrid : (b.set_cell p
      { kind := (b.cells p).kind, flagged := (b.cells p).flagged,
        clicked := true }).grid = b.grid := rfl
  rw [hgrid]
  have hfe : (b.grid.filter
      (fun q => ((b.set_cell p
        { kind := (b.cells p).kind, flagged := (b.cells p).flagged,
          clicked := true }).cells q).clicked = false)) =
      (b.grid.filter (fun q => (b.cells q).clicked = false)).erase p := by
    ext q
    simp only [Finset.mem_filter, Finset.mem_erase, Board.set_cell]
    by_cases hq : q = p
    · subst hq; simp
    · simp [hq]

  rw [hfe]
  have hmem : p ∈ b.grid.filter (fun q => (b.cells q).clicked = false) :=
    Finset.mem_filter.2 ⟨hp, hc⟩
  rw [Finset.card_erase_of_mem hmem]
  have := Finset.card_pos.2 ⟨p, hmem⟩
  omega

theorem all_clicked_of_unclicked_count_zero (b : Board) (h : b.unclicked_count = 0)
    (p : Int × Int) (hp : p ∈ b.grid) : (b.cells p).clicked = true := by
  by_contra hc
  have hb : (b.cells p).clicked = false := by
    cases hbc : (b.cells p).clicked
    · rfl
    · exact absurd hbc hc
  have hmem : p ∈ b.grid.filter (fun q => (b.cells q).clicked = false) :=
    Finset.mem_filter.2 ⟨hp, hb⟩
  have hpos := Finset.card_pos.2 ⟨p, hmem⟩
  unfold Board.unclicked_count at h
  omega

/-! ### Termination of the cascade: fuel stability -/

theorem click_fuel_invalid (fuel : Nat) (b : Board) (row column : Int)
    (hv : ¬((b.is_valid_row row && b.is_valid_column column) = true)) :
    click_fuel fuel b row column = b := by
  cases fuel with
  | zero => rfl
  | succ fuel => simp only [click_fuel]; rw [if_neg hv]

theorem click_fuel_flagged (fuel : Nat) (b : Board) (row column : Int)
    (hf : (b.cells (row, column)).flagged = true) :
    click_fuel fuel b row column = b := by
  cases fuel with
  | zero => rfl
  | succ fuel =>
    simp only [click_fuel]
    by_cases hv : (b.is_valid_row row && b.is_valid_column column) = true
    · rw [if_pos hv, if_pos hf]
    · rw [if_neg hv]

theorem click_fuel_clicked (fuel : Nat) (b : Board) (row column : Int)
    (hc : (b.cells (row, column)).clicked = true) :
    click_fuel fuel b row column = b := by
  cases fuel with
  | zero => rfl
  | succ fuel =>
    simp only [click_fuel]
    by_cases hv : (b.is_valid_row row && b.is_valid_column column) = true
    · rw [if_pos hv]
      by_cases hf : (b.cells (row, column)).flagged = true
      · rw [if_pos hf]
      · rw [if_neg hf, if_pos hc]
    · rw [if_neg hv]

theorem click_fold_succ_eq (fuel : Nat)
    (ih : ∀ (b : Board) (row column : Int), b.unclicked_count ≤ fuel →
      click_fuel (fuel + 1) b row column = click_fuel fuel b row column) :
    ∀ (l : List (Int × Int)) (bb : Board), bb.unclicked_count ≤ fuel →
      l.foldl (fun x q => click_fuel (fuel + 1) x q.1 q.2) bb =
      l.foldl (fun x q => click_fuel fuel x q.1 q.2) bb := by
  intro l
  induction l with
  | nil => intro bb _; rfl
  | cons q l ihl =>
    intro bb hbb
    simp only [List.foldl_cons]
    rw [ih bb q.1 q.2 hbb]
    exact ihl _ (le_trans (unclicked_le_of_evolves (evolves_click_fuel fuel bb q.1 q.2)) hbb)

theorem click_fuel_succ_eq : ∀ (fuel : Nat) (b : Board) (row column : Int),
    b.unclicked_count ≤ fuel →
      click_fuel (fuel + 1) b row column = click_fuel fuel b row column := by
  intro fuel
  induction fuel with
  | zero =>
    intro b row column h0
    have h0' : b.unclicked_count = 0 := Nat.le_zero.mp h0
    by_cases hv : (b.is_valid_row row && b.is_valid_column column) = true
    · exact click_fuel_clicked 1 b row column
        (all_clicked_of_unclicked_count_zero b h0' _ (valid_mem_grid b row column hv))
    · exact click_fuel_invalid 1 b row column hv
  | succ fuel ih =>
    intro b row column h
    simp only [click_fuel]
    by_cases hv : (b.is_valid_row row && b.is_valid_column column) = true
    · rw [if_pos hv, if_pos hv]
      by_cases hf : (b.cells (row, column)).flagged = true
      · rw [if_pos hf, if_pos hf]
      · rw [if_neg hf, if_neg hf]
        by_cases hc : (b.cells (row, column)).clicked = true
        · rw [if_pos hc, if_pos hc]
        · rw [if_neg hc, if_neg hc]
          by_cases hk : (b.cells (row, column)).kind = CellKind.empty
          · rw [if_pos hk, if_pos hk]
            have hcfalse : (b.cells (row, column)).clicked = false := by
              cases hx : (b.cells (row, column)).clicked
              · rfl
              · exact absurd hx hc
            have hb1 := unclicked_count_set_clicked b (row, column)
              (valid_mem_grid b row column hv) hcfalse
            exact click_fold_succ_eq fuel ih _ _ (by omega)
          · rw [if_neg hk, if_neg hk]
    · rw [if_neg hv, if_neg hv]

theorem click_fuel_stable (b : Board) (row column : Int) :
    ∀ fuel, b.unclicked_count ≤ fuel →
      click_fuel fuel b row column = click_fuel b.unclicked_count b row column := by
  intro fuel
  induction fuel with
  | zero => intro h; rw [Nat.le_zero.mp h]
  | succ fuel ih =>
    intro h
    rcases Nat.lt_or_ge b.unclicked_count (fuel + 1) with hlt | hge
    · have hle : b.unclicked_count ≤ fuel := Nat.lt_succ_iff.mp hlt
      rw [click_fuel_succ_eq fuel b row column hle, ih hle]
    · rw [le_antisymm h hge]

theorem validate_eq_of_evolves {b b' : Board} (h : Evolves b b') (row column : Int) :
    b'.validate_cell row column = b.validate_cell row column := by
  unfold Board.validate_cell Board.is_valid_row Board.is_valid_column
  rw [h.1, h.2.1]

theorem click_fuel_result_clicked (fuel : Nat) (b : Board) (row column : Int)
    (hv : (b.is_valid_row row && b.is_valid_column column) = true)
    (hf : (b.cells (row, column)).flagged = false)
    (hfuel : 1 ≤ fuel) :
    ((click_fuel fuel b row column).cells (row, column)).clicked = true := by
  cases fuel with
  | zero => omega
  | succ fuel =>
    by_cases hc : (b.cells (row, column)).clicked = true
    · rw [click_fuel_clicked (fuel + 1) b row column hc]; exact hc
    · simp only [click_fuel]
      rw [if_pos hv, if_neg (by rw [hf]; exact Bool.false_ne_true), if_neg hc]
      have hset : ((b.set_cell (row, column)
          { kind := (b.cells (row, column)).kind, flagged := (b.cells (row, column)).flagged,
            clicked := true }).cells (row, column)).clicked = true := by
        simp [Board.set_cell]
      by_cases hk : (b.cells (row, column)).kind = CellKind.empty
      · rw [if_pos hk]
        have hev := evolves_foldl (fun bb q => click_fuel fuel bb q.1 q.2)
          (fun bb q => evolves_click_fuel fuel bb q.1 q.2)
          (b.get_neighbors row column)
          (b.set_cell (row, column)
            { kind := (b.cells (row, column)).kind, flagged := (b.cells (row, column)).flagged,
              clicked := true })
        exact (hev.2.2 (row, column)).2.2 hset
      · rw [if_neg hk]; exact hset

/-! ### Validation and the public click -/

theorem validate_cell_ok (b : Board) (row column : Int)
    (h : (b.is_valid_row row && b.is_valid_column column) = true) :
    b.validate_cell row column = Except.ok () := by
  simp only [Bool.and_eq_true] at h
  unfold Board.validate_cell
  rw [if_neg (by rw [h.1]; simp), if_neg (by rw [h.2]; simp)]

theorem validate_cell_ok_valid {b : Board} {row column : Int} {u : Unit}
    (h : b.validate_cell row column = Except.ok u) :
    (b.is_valid_row row && b.is_valid_column column) = true := by
  cases hr : b.is_valid_row row with
  | false => simp [Board.validate_cell, hr] at h
  | true =>
    cases hc : b.is_valid_column column with
    | false => simp [Board.validate_cell, hr, hc] at h
    | true => rfl

theorem click_ok_result {b b1 : Board} {row column : Int}
    (h : b.click row column = Except.ok b1) :
    b1 = click_fuel b.unclicked_count b row column := by
  unfold Board.click at h
  cases hval : b.validate_cell row column with
  | error e => rw [hval] at h; exact absurd h (by simp)
  | ok u =>
    rw [hval] at h
    injection h with h1
    exact h1.symm

theorem click_ok_evolves {b b1 : Board} {row column : Int}
    (h : b.click row column = Except.ok b1) : Evolves b b1 := by
  rw [click_ok_result h]
  exact evolves_click_fuel _ b row column

theorem one_le_unclicked_count (b : Board) (p : Int × Int) (hp : p ∈ b.grid)
    (hc : (b.cells p).clicked = false) : 1 ≤ b.unclicked_count := by
  unfold Board.unclicked_count
  exact Finset.card_pos.2 ⟨p, Finset.mem_filter.2 ⟨hp, hc⟩⟩

theorem click_valid_ok (b : Board) (row column : Int)
    (hv : (b.is_valid_row row && b.is_valid_column column) = true) :
    b.click row column =
      Except.ok (click_fuel b.unclicked_count b row column) := by
  unfold Board.click
  rw [validate_cell_ok b row column hv]

/-! ### Claim theorems -/

/-- C4: the reveal cascade is a total function of the board: `click_fuel` is
fuel-insensitive once the fuel reaches the number of still-hidden cells (the
recursion needs at most one reveal transition per cell, so it terminates on
every finite board); revealing is monotone (`Evolves`), and a click on an
already-revealed cell short-circuits, leaving the board untouched. -/
theorem claim_C4_cascade_terminates (b : Board) (row column : Int) (fuel : Nat)
    (h : b.unclicked_count ≤ fuel) :
    click_fuel fuel b row column = click_fuel b.unclicked_count b row column ∧
    Evolves b (click_fuel fuel b row column) ∧
    ((b.cells (row, column)).clicked = true → click_fuel fuel b row column = b) :=
  ⟨click_fuel_stable b row column fuel h, evolves_click_fuel fuel b row column,
    fun hc => click_fuel_clicked fuel b row column hc⟩

theorem claim_C4_cascade_terminates_witness :
    click_fuel 5 (Board.make 1 1 ∅) 0 0 =
      click_fuel (Board.make 1 1 ∅).unclicked_count (Board.make 1 1 ∅) 0 0 ∧
    Evolves (Board.make 1 1 ∅) (click_fuel 5 (Board.make 1 1 ∅) 0 0) ∧
    (((Board.make 1 1 ∅).cells (0, 0)).clicked = true →
      click_fuel 5 (Board.make 1 1 ∅) 0 0 = Board.make 1 1 ∅) :=
  claim_C4_cascade_terminates (Board.make 1 1 ∅) 0 0 5 (by decide)

/-- C5: revealing a coordinate twice yields exactly the board of revealing it
once: when the first reveal returns board `b1`, revealing the same coordinate
on `b1` returns `b1` itself, so every cell (and hence its rendering) is
identical. -/
theorem claim_C5_reveal_idempotent (b b1 : Board) (row column : Int)
    (h : b.click row column = Except.ok b1) :
    b1.click row column = Except.ok b1 := by
  have hb1 := click_ok_result h
  have hev : Evolves b b1 := click_ok_evolves h
  have hv : (b.is_valid_row row && b.is_valid_column column) = true := by
    unfold Board.click at h
    cases hval : b.validate_cell row column with
    | error e => rw [hval] at h; exact absurd h (by simp)
    | ok u => exact validate_cell_ok_valid hval
  have hv1 : (b1.is_valid_row row && b1.is_valid_column column) = true := by
    unfold Board.is_valid_row Board.is_valid_column
    rw [hev.1, hev.2.1]
    exact hv
  rw [click_valid_ok b1 row column hv1]
  congr 1
  by_cases hf : (b.cells (row, column)).flagged = true
  · have : b1 = b := by rw [hb1, click_fuel_flagged _ b row column hf]
    subst this
    exact click_fuel_flagged _ b1 row column hf
  · by_cases hc : (b.cells (row, column)).clicked = true
    · have : b1 = b := by rw [hb1, click_fuel_clicked _ b row column hc]
      subst this
      exact click_fuel_clicked _ b1 row column hc
    · have hcf : (b.cells (row, column)).clicked = false := by
        cases hx : (b.cells (row, column)).clicked
        · rfl
        · exact absurd hx hc
      have hff : (b.cells (row, column)).flagged = false := by
        cases hx : (b.cells (row, column)).flagged
        · rfl
        · exact absurd hx hf
      have hfuel : 1 ≤ b.unclicked_count :=
        one_le_unclicked_count b (row, column) (valid_mem_grid b row column hv) hcf
      have hclicked : ((click_fuel b.unclicked_count b row column).cells
          (row, column)).clicked = true :=
        click_fuel_result_clicked b.unclicked_count b row column hv hff hfuel
      rw [← hb1] at hclicked
      exact click_fuel_clicked _ b1 row column hclicked

theorem claim_C5_reveal_idempotent_witness :
    ((Board.make 1 2 {(0, 1)}).run_ops [BoardOp.click 0 0]).click 0 0 =
      Except.ok ((Board.make 1 2 {(0, 1)}).run_ops [BoardOp.click 0 0]) :=
  claim_C5_reveal_idempotent (Board.make 1 2 {(0, 1)}) _ 0 0 rfl

/-! ### Flag operations -/

theorem bool_not_true {x : Bool} (h : ¬(x = true)) : x = false := by
  cases hx : x
  · rfl
  · exact absurd hx h

theorem flag_only_refl (b : Board) : FlagOnly b b :=
  ⟨rfl, rfl, fun _ => ⟨rfl, rfl⟩⟩

theorem put_flag_eq_of_valid (b : Board) (row column : Int)
    (hv : (b.is_valid_row row && b.is_valid_column column) = true) :
    b.put_flag row column =
      (if (b.cells (row, column)).clicked = true then Except.ok b
       else Except.ok (b.set_cell (row, column)
         { kind := (b.cells (row, column)).kind, flagged := true,
           clicked := (b.cells (row, column)).clicked })) := by
  unfold Board.put_flag
  simp only [validate_cell_ok b row column hv]

theorem remove_flag_eq_of_valid (b : Board) (row column : Int)
    (hv : (b.is_valid_row row && b.is_valid_column column) = true) :
    b.remove_flag row column =
      Except.ok (b.set_cell (row, column)
        { kind := (b.cells (row, column)).kind, flagged := false,
          clicked := (b.cells (row, column)).clicked }) := by
  unfold Board.remove_flag
  simp only [validate_cell_ok b row column hv]

theorem put_flag_ok_valid {b b1 : Board} {row column : Int}
    (h : b.put_flag row column = Except.ok b1) :
    (b.is_valid_row row && b.is_valid_column column) = true := by
  unfold Board.put_flag at h
  cases hval : b.validate_cell row column with
  | error e => rw [hval] at h; exact absurd h (by simp)
  | ok u => exact validate_cell_ok_valid hval

theorem remove_flag_ok_valid {b b1 : Board} {row column : Int}
    (h : b.remove_flag row column = Except.ok b1) :
    (b.is_valid_row row && b.is_valid_column column) = true := by
  unfold Board.remove_flag at h
  cases hval : b.validate_cell row column with
  | error e => rw [hval] at h; exact absurd h (by simp)
  | ok u => exact validate_cell_ok_valid hval

theorem put_flag_ok_flag_only {b b1 : Board} {row column : Int}
    (h : b.put_flag row column = Except.ok b1) : FlagOnly b b1 := by
  have hv := put_flag_ok_valid h
  rw [put_flag_eq_of_valid b row column hv] at h
  by_cases hc : (b.cells (row, column)).clicked = true
  · rw [if_pos hc] at h
    injection h with h1
    rw [← h1]
    exact flag_only_refl b
  · rw [if_neg hc] at h
    injection h with h1
    rw [← h1]
    refine ⟨rfl, rfl, fun p => ?_⟩
    by_cases hp : p = (row, column)
    · subst hp; simp [Board.set_cell]
    · simp [Board.set_cell, hp]

theorem remove_flag_ok_flag_only {b b1 : Board} {row column : Int}
    (h : b.remove_flag row column = Except.ok b1) : FlagOnly b b1 := by
  have hv := remove_flag_ok_valid h
  rw [remove_flag_eq_of_valid b row column hv] at h
  injection h with h1
  rw [← h1]
  refine ⟨rfl, rfl, fun p => ?_⟩
  by_cases hp : p = (row, column)
  · subst hp; simp [Board.set_cell]
  · simp [Board.set_cell, hp]

theorem apply_op_click_eq {b x : Board} {r c : Int}
    (h : b.click r c = Except.ok x) : b.apply_op (BoardOp.click r c) = x := by
  simp only [Board.apply_op]
  rw [h]

theorem apply_op_put_flag_eq {b x : Board} {r c : Int}
    (h : b.put_flag r c = Except.ok x) : b.apply_op (BoardOp.put_flag r c) = x := by
  simp only [Board.apply_op]
  rw [h]

theorem apply_op_remove_flag_eq {b x : Board} {r c : Int}
    (h : b.remove_flag r c = Except.ok x) : b.apply_op (BoardOp.remove_flag r c) = x := by
  simp only [Board.apply_op]
  rw [h]

/-! ### Claim C8: reveal state is monotonic -/

theorem apply_op_clicked_mono (b : Board) (op : BoardOp) (p : Int × Int)
    (h : (b.cells p).clicked = true) : ((b.apply_op op).cells p).clicked = true := by
  cases op with
  | click r c =>
    simp only [Board.apply_op]
    cases hcl : b.click r c with
    | error e => exact h
    | ok b1 => exact ((click_ok_evolves hcl).2.2 p).2.2 h
  | put_flag r c =>
    simp only [Board.apply_op]
    cases hcl : b.put_flag r c with
    | error e => exact h
    | ok b1 =>
      show (b1.cells p).clicked = true
      rw [(put_flag_ok_flag_only hcl).2.2 p |>.2]
      exact h
  | remove_flag r c =>
    simp only [Board.apply_op]
    cases hcl : b.remove_flag r c with
    | error e => exact h
    | ok b1 =>
      show (b1.cells p).clicked = true
      rw [(remove_flag_ok_flag_only hcl).2.2 p |>.2]
      exact h

/-- C8: reveal state is monotonic: once a cell is revealed, no later sequence
of reveal / flag / unflag operations ever returns it to hidden. -/
theorem claim_C8_reveal_monotonic (b : Board) (ops : List BoardOp) (p : Int × Int)
    (h : (b.cells p).clicked = true) :
    ((b.run_ops ops).cells p).clicked = true := by
  induction ops generalizing b with
  | nil => exact h
  | cons op ops ih => exact ih (b.apply_op op) (apply_op_clicked_mono b op p h)

theorem claim_C8_reveal_monotonic_witness :
    ((((Board.make 1 2 {(0, 1)}).run_ops [BoardOp.click 0 0]).run_ops
      [BoardOp.put_flag 0 0, BoardOp.remove_flag 0 0, BoardOp.click 0 1]).cells
        (0, 0)).clicked = true :=
  claim_C8_reveal_monotonic ((Board.make 1 2 {(0, 1)}).run_ops [BoardOp.click 0 0])
    [BoardOp.put_flag 0 0, BoardOp.remove_flag 0 0, BoardOp.click 0 1] (0, 0) (by decide)

/-! ### Claim C10: a revealed cell is never flagged -/

theorem foldl_preserve_prop (P : Board → Prop) (f : Board → Int × Int → Board)
    (hf : ∀ bb q, P bb → P (f bb q)) :
    ∀ (l : List (Int × Int)) (bb : Board), P bb → P (l.foldl f bb) := by
  intro l
  induction l with
  | nil => intro bb h; exact h
  | cons q l ihl => intro bb h; exact ihl _ (hf bb q h)

theorem click_fuel_revealed_unflagged : ∀ (fuel : Nat) (b : Board) (row column : Int),
    RevealedUnflagged b → RevealedUnflagged (click_fuel fuel b row column) := by
  intro fuel
  induction fuel with
  | zero => intro b row column h; exact h
  | succ fuel ih =>
    intro b row column h
    simp only [click_fuel]
    by_cases hv : (b.is_valid_row row && b.is_valid_column column) = true
    · rw [if_pos hv]
      by_cases hf : (b.cells (row, column)).flagged = true
      · rw [if_pos hf]; exact h
      · rw [if_neg hf]
        by_cases hc : (b.cells (row, column)).clicked = true
        · rw [if_pos hc]; exact h
        · rw [if_neg hc]
          have hb1 : RevealedUnflagged (b.set_cell (row, column)
              { kind := (b.cells (row, column)).kind,
                flagged := (b.cells (row, column)).flagged, clicked := true }) := by
            intro p hp
            by_cases hpq : p = (row, column)
            · subst hpq
              simp only [Board.set_cell, if_pos rfl] at hp ⊢
              exact bool_not_true hf
            · simp only [Board.set_cell, if_neg hpq] at hp ⊢
              exact h p hp
          by_cases hk : (b.cells (row, column)).kind = CellKind.empty
          · rw [if_pos hk]
            exact foldl_preserve_prop RevealedUnflagged _
              (fun bb q hbb => ih bb q.1 q.2 hbb) _ _ hb1
          · rw [if_neg hk]; exact hb1
    · rw [if_neg hv]; exact h

theorem apply_op_revealed_unflagged (b : Board) (op : BoardOp)
    (h : RevealedUnflagged b) : RevealedUnflagged (b.apply_op op) := by
  cases op with
  | click r c =>
    simp only [Board.apply_op]
    cases hcl : b.click r c with
    | error e => exact h
    | ok b1 =>
      show RevealedUnflagged b1
      rw [click_ok_result hcl]
      exact click_fuel_revealed_unflagged _ b r c h
  | put_flag r c =>
    simp only [Board.apply_op]
    cases hcl : b.put_flag r c with
    | error e => exact h
    | ok b1 =>
      show RevealedUnflagged b1
      have hv := put_flag_ok_valid hcl
      rw [put_flag_eq_of_valid b r c hv] at hcl
      by_cases hc : (b.cells (r, c)).clicked = true
      · rw [if_pos hc] at hcl
        injection hcl with h1
        rw [← h1]; exact h
      · rw [if_neg hc] at hcl
        injection hcl with h1
        rw [← h1]
        intro p hp
        by_cases hpq : p = (r, c)
        · subst hpq
          simp only [Board.set_cell, if_pos rfl] at hp
          exact absurd hp hc
        · simp only [Board.set_cell, if_neg hpq] at hp ⊢
          exact h p hp
  | remove_flag r c =>
    simp only [Board.apply_op]
    cases hcl : b.remove_flag r c with
    | error e => exact h
    | ok b1 =>
      show RevealedUnflagged b1
      have hv := remove_flag_ok_valid hcl
      rw [remove_flag_eq_of_valid b r c hv] at hcl
      injection hcl with h1
      rw [← h1]
      intro p hp
      by_cases hpq : p = (r, c)
      · subst hpq; simp [Board.set_cell]
      · simp only [Board.set_cell, if_neg hpq] at hp ⊢
        exact h p hp

theorem make_cells_unclicked (rows columns : Nat) (bp : Finset (Int × Int)) (p : Int × Int) :
    ((Board.make rows columns bp).cells p).clicked = false := by
  show ((Board.place_bombs rows columns bp) p).clicked = false
  unfold Board.place_bombs build_plain_cell
  by_cases hm : p ∈ bp
  · rw [if_pos hm]
  · rw [if_neg hm]
    by_cases hz : (neighbors_list rows columns p.1 p.2).countP (fun q => decide (q ∈ bp)) = 0
    · rw [if_pos hz]
    · rw [if_neg hz]

theorem make_cells_unflagged (rows columns : Nat) (bp : Finset (Int × Int)) (p : Int × Int) :
    ((Board.make rows columns bp).cells p).flagged = false := by
  show ((Board.place_bombs rows columns bp) p).flagged = false
  unfold Board.place_bombs build_plain_cell
  by_cases hm : p ∈ bp
  · rw [if_pos hm]
  · rw [if_neg hm]
    by_cases hz : (neighbors_list rows columns p.1 p.2).countP (fun q => decide (q ∈ bp)) = 0
    · rw [if_pos hz]
    · rw [if_neg hz]

theorem run_ops_revealed_unflagged (b : Board) (ops : List BoardOp)
    (h : RevealedUnflagged b) : RevealedUnflagged (b.run_ops ops) := by
  induction ops generalizing b with
  | nil => exact h
  | cons op ops ih => exact ih _ (apply_op_revealed_unflagged b op h)

/-- C10: in every state reachable from construction by reveal / flag / unflag
operations, a revealed cell is unflagged: reveal is suppressed while flagged
and flagging is a no-op once revealed, so the two can never coincide. -/
theorem claim_C10_revealed_never_flagged (rows columns : Nat)
    (bombs_positions : Finset (Int × Int)) (ops : List BoardOp) :
    RevealedUnflagged ((Board.make rows columns bombs_positions).run_ops ops) := by
  apply run_ops_revealed_unflagged
  intro p hp
  rw [make_cells_unclicked rows columns bombs_positions p] at hp
  exact absurd hp (by simp)

/-! ### Claim C2: a flag suppresses reveal -/

/-- C2: on a hidden cell, flagging and then revealing leaves the cell hidden
and flagged — the reveal returns the board unchanged, raising no error; then
unflagging followed by revealing transitions the cell to revealed. -/
theorem claim_C2_flag_suppresses_reveal (b : Board) (row column : Int)
    (hv : (b.is_valid_row row && b.is_valid_column column) = true)
    (hh : (b.cells (row, column)).clicked = false) :
    b.put_flag row column = Except.ok (b.apply_op (BoardOp.put_flag row column)) ∧
    ((b.apply_op (BoardOp.put_flag row column)).cells (row, column)).flagged = true ∧
    ((b.apply_op (BoardOp.put_flag row column)).cells (row, column)).clicked = false ∧
    (b.apply_op (BoardOp.put_flag row column)).click row column =
      Except.ok (b.apply_op (BoardOp.put_flag row column)) ∧
    (b.apply_op (BoardOp.put_flag row column)).remove_flag row column =
      Except.ok ((b.apply_op (BoardOp.put_flag row column)).apply_op
        (BoardOp.remove_flag row column)) ∧
    ((b.apply_op (BoardOp.put_flag row column)).apply_op
        (BoardOp.remove_flag row column)).click row column =
      Except.ok (((b.apply_op (BoardOp.put_flag row column)).apply_op
        (BoardOp.remove_flag row column)).apply_op (BoardOp.click row column)) ∧
    ((((b.apply_op (BoardOp.put_flag row column)).apply_op
        (BoardOp.remove_flag row column)).apply_op (BoardOp.click row column)).cells
      (row, column)).clicked = true := by
  have hpf : b.put_flag row column = Except.ok (b.set_cell (row, column)
      { kind := (b.cells (row, column)).kind, flagged := true,
        clicked := (b.cells (row, column)).clicked }) := by
    rw [put_flag_eq_of_valid b row column hv, if_neg (by simp [hh])]
  rw [apply_op_put_flag_eq hpf]
  obtain ⟨F, hFdef⟩ : ∃ F, b.set_cell (row, column)
      { kind := (b.cells (row, column)).kind, flagged := true,
        clicked := (b.cells (row, column)).clicked } = F := ⟨_, rfl⟩
  rw [hFdef] at hpf ⊢
  have hFcell : F.cells (row, column) =
      { kind := (b.cells (row, column)).kind, flagged := true,
        clicked := (b.cells (row, column)).clicked } := by
    rw [← hFdef]; simp [Board.set_cell]
  have hvF : (F.is_valid_row row && F.is_valid_column column) = true := by
    rw [← hFdef]; exact hv
  have hrf := remove_flag_eq_of_valid F row column hvF
  rw [apply_op_remove_flag_eq hrf]
  obtain ⟨U, hUdef⟩ : ∃ U, F.set_cell (row, column)
      { kind := (F.cells (row, column)).kind, flagged := false,
        clicked := (F.cells (row, column)).clicked } = U := ⟨_, rfl⟩
  rw [hUdef] at hrf ⊢
  have hUcell : U.cells (row, column) =
      { kind := (F.cells (row, column)).kind, flagged := false,
        clicked := (F.cells (row, column)).clicked } := by
    rw [← hUdef]; simp [Board.set_cell]
  have hvU : (U.is_valid_row row && U.is_valid_column column) = true := by
    rw [← hUdef, ← hFdef]; exact hv
  have hUclicked : (U.cells (row, column)).clicked = false := by
    simp [hUcell, hFcell, hh]
  have hcl := click_valid_ok U row column hvU
  rw [apply_op_click_eq hcl]
  refine ⟨hpf, ?_, ?_, ?_, hrf, hcl, ?_⟩
  · rw [hFcell]
  · simp [hFcell, hh]
  · rw [click_valid_ok F row column hvF]
    congr 1
    apply click_fuel_flagged
    rw [hFcell]
  · exact click_fuel_result_clicked _ U row column hvU (by simp [hUcell])
      (one_le_unclicked_count U (row, column) (valid_mem_grid U row column hvU) hUclicked)

theorem claim_C2_flag_suppresses_reveal_witness :
    (Board.make 1 1 ∅).put_flag 0 0 =
      Except.ok ((Board.make 1 1 ∅).apply_op (BoardOp.put_flag 0 0)) ∧
    (((Board.make 1 1 ∅).apply_op (BoardOp.put_flag 0 0)).cells (0, 0)).flagged = true ∧
    (((Board.make 1 1 ∅).apply_op (BoardOp.put_flag 0 0)).cells (0, 0)).clicked = false ∧
    ((Board.make 1 1 ∅).apply_op (BoardOp.put_flag 0 0)).click 0 0 =
      Except.ok ((Board.make 1 1 ∅).apply_op (BoardOp.put_flag 0 0)) ∧
    ((Board.make 1 1 ∅).apply_op (BoardOp.put_flag 0 0)).remove_flag 0 0 =
      Except.ok (((Board.make 1 1 ∅).apply_op (BoardOp.put_flag 0 0)).apply_op
        (BoardOp.remove_flag 0 0)) ∧
    (((Board.make 1 1 ∅).apply_op (BoardOp.put_flag 0 0)).apply_op
        (BoardOp.remove_flag 0 0)).click 0 0 =
      Except.ok ((((Board.make 1 1 ∅).apply_op (BoardOp.put_flag 0 0)).apply_op
        (BoardOp.remove_flag 0 0)).apply_op (BoardOp.click 0 0)) ∧
    ((((((Board.make 1 1 ∅).apply_op (BoardOp.put_flag 0 0)).apply_op
        (BoardOp.remove_flag 0 0)).apply_op (BoardOp.click 0 0)).cells
      (0, 0)).clicked = true) :=
  claim_C2_flag_suppresses_reveal (Board.make 1 1 ∅) 0 0 (by decide) (by decide)

/-! ### Claim C6: bounds validation and error messages -/

theorem validate_cell_row_error (b : Board) (row column : Int)
    (hr : b.is_valid_row row = false) :
    b.validate_cell row column = Except.error (row_error_message row b.rows) := by
  simp [Board.validate_cell, hr]

theorem validate_cell_column_error (b : Board) (row column : Int)
    (hr : b.is_valid_row row = true) (hc : b.is_valid_column column = false) :
    b.validate_cell row column = Except.error (column_error_message column b.columns) := by
  simp [Board.validate_cell, hr, hc]

theorem click_error_eq {b : Board} {row column : Int} {e : String}
    (h : b.validate_cell row column = Except.error e) :
    b.click row column = Except.error e := by
  unfold Board.click
  rw [h]

theorem put_flag_error_eq {b : Board} {row column : Int} {e : String}
    (h : b.validate_cell row column = Except.error e) :
    b.put_flag row column = Except.error e := by
  unfold Board.put_flag
  rw [h]

theorem remove_flag_error_eq {b : Board} {row column : Int} {e : String}
    (h : b.validate_cell row column = Except.error e) :
    b.remove_flag row column = Except.error e := by
  unfold Board.remove_flag
  rw [h]

theorem row_ne_column_message (row : Int) (rows : Nat) (column : Int) (columns : Nat) :
    row_error_message row rows ≠ column_error_message column columns := by
  intro h
  have hd : (row_error_message row rows).data = (column_error_message column columns).data := by
    rw [h]
  unfold row_error_message column_error_message at hd
  simp only [String.data_append,
    show ("Row " : String).data = ['R', 'o', 'w', ' '] from rfl,
    show ("Column " : String).data = ['C', 'o', 'l', 'u', 'm', 'n', ' '] from rfl,
    List.cons_append, List.nil_append, List.append_assoc] at hd
  injection hd with h1 _
  exact absurd h1 (by decide)

/-- C6: `reveal`, `flag` and `unflag` fail exactly on out-of-bounds
coordinates: an invalid row yields the row message (naming the value and the
valid range), a valid row with an invalid column yields the column message,
the two messages always differ, and every in-bounds call returns without
error — including re-revealing, flagging a revealed cell, double-flagging and
unflagging an unflagged cell, since the board argument is arbitrary. -/
theorem claim_C6_validation (b : Board) (row column : Int) :
    (b.is_valid_row row = true ↔ 0 ≤ row ∧ row < (b.rows : Int)) ∧
    (b.is_valid_column column = true ↔ 0 ≤ column ∧ column < (b.columns : Int)) ∧
    (b.is_valid_row row = false →
      b.click row column = Except.error (row_error_message row b.rows) ∧
      b.put_flag row column = Except.error (row_error_message row b.rows) ∧
      b.remove_flag row column = Except.error (row_error_message row b.rows)) ∧
    (b.is_valid_row row = true → b.is_valid_column column = false →
      b.click row column = Except.error (column_error_message column b.columns) ∧
      b.put_flag row column = Except.error (column_error_message column b.columns) ∧
      b.remove_flag row column = Except.error (column_error_message column b.columns)) ∧
    ((b.is_valid_row row && b.is_valid_column column) = true →
      b.click row column = Except.ok (click_fuel b.unclicked_count b row column) ∧
      b.put_flag row column =
        (if (b.cells (row, column)).clicked = true then Except.ok b
         else Except.ok (b.set_cell (row, column)
           { kind := (b.cells (row, column)).kind, flagged := true,
             clicked := (b.cells (row, column)).clicked })) ∧
      b.remove_flag row column = Except.ok (b.set_cell (row, column)
        { kind := (b.cells (row, column)).kind, flagged := false,
          clicked := (b.cells (row, column)).clicked })) ∧
    row_error_message row b.rows ≠ column_error_message column b.columns := by
  refine ⟨?_, ?_, ?_, ?_, ?_, ?_⟩
  · simp [Board.is_valid_row]
  · simp [Board.is_valid_column]
  · intro hr
    have hval := validate_cell_row_error b row column hr
    exact ⟨click_error_eq hval, put_flag_error_eq hval, remove_flag_error_eq hval⟩
  · intro hr hc
    have hval := validate_cell_column_error b row column hr hc
    exact ⟨click_error_eq hval, put_flag_error_eq hval, remove_flag_error_eq hval⟩
  · intro hv
    exact ⟨click_valid_ok b row column hv, put_flag_eq_of_valid b row column hv,
      remove_flag_eq_of_valid b row column hv⟩
  · exact row_ne_column_message row b.rows column b.columns

theorem claim_C6_validation_witness :
    (Board.make 2 3 ∅).click (-1) 0 = Except.error (row_error_message (-1) 2) ∧
    (Board.make 2 3 ∅).click 0 5 = Except.error (column_error_message 5 3) ∧
    row_error_message (-1) 2 ≠ column_error_message 5 3 :=
  ⟨((claim_C6_validation (Board.make 2 3 ∅) (-1) 0).2.2.1 (by decide)).1,
   ((claim_C6_validation (Board.make 2 3 ∅) 0 5).2.2.2.1 (by decide) (by decide)).1,
   (claim_C6_validation (Board.make 2 3 ∅) (-1) 5).2.2.2.2.2⟩

/-! ### Claim C7: the bomb count -/

theorem same_kinds_refl (b : Board) : SameKinds b b :=
  ⟨rfl, rfl, fun _ => rfl⟩

theorem same_kinds_trans {a b c : Board} (h1 : SameKinds a b) (h2 : SameKinds b c) :
    SameKinds a c :=
  ⟨h2.1.trans h1.1, h2.2.1.trans h1.2.1, fun p => (h2.2.2 p).trans (h1.2.2 p)⟩

theorem evolves_same_kinds {b b' : Board} (h : Evolves b b') : SameKinds b b' :=
  ⟨h.1, h.2.1, fun p => (h.2.2 p).1⟩

theorem flag_only_same_kinds {b b' : Board} (h : FlagOnly b b') : SameKinds b b' :=
  ⟨h.1, h.2.1, fun p => (h.2.2 p).1⟩

theorem apply_op_same_kinds (b : Board) (op : BoardOp) : SameKinds b (b.apply_op op) := by
  cases op with
  | click r c =>
    simp only [Board.apply_op]
    cases hcl : b.click r c with
    | error e => exact same_kinds_refl b
    | ok b1 => exact evolves_same_kinds (click_ok_evolves hcl)
  | put_flag r c =>
    simp only [Board.apply_op]
    cases hcl : b.put_flag r c with
    | error e => exact same_kinds_refl b
    | ok b1 => exact flag_only_same_kinds (put_flag_ok_flag_only hcl)
  | remove_flag r c =>
    simp only [Board.apply_op]
    cases hcl : b.remove_flag r c with
    | error e => exact same_kinds_refl b
    | ok b1 => exact flag_only_same_kinds (remove_flag_ok_flag_only hcl)

theorem run_ops_same_kinds (b : Board) (ops : List BoardOp) :
    SameKinds b (b.run_ops ops) := by
  induction ops generalizing b with
  | nil => exact same_kinds_refl b
  | cons op ops ih => exact same_kinds_trans (apply_op_same_kinds b op) (ih _)

theorem bomb_count_eq_of_same_kinds {b b' : Board} (h : SameKinds b b') :
    b'.bomb_count = b.bomb_count := by
  unfold Board.bomb_count
  have hg : b'.grid = b.grid := by unfold Board.grid; rw [h.1, h.2.1]
  rw [hg]
  congr 1
  apply Finset.filter_congr
  intro p hp
  rw [h.2.2 p]

theorem make_cells_kind_bomb (rows columns : Nat) (bp : Finset (Int × Int))
    (q : Int × Int) :
    ((Board.make rows columns bp).cells q).kind = CellKind.bomb ↔ q ∈ bp := by
  constructor
  · intro hk
    by_contra hq
    have hno : ((Board.place_bombs rows columns bp) q).kind ≠ CellKind.bomb := by
      unfold Board.place_bombs build_plain_cell
      rw [if_neg hq]
      by_cases hz : (neighbors_list rows columns q.1 q.2).countP
          (fun x => decide (x ∈ bp)) = 0
      · rw [if_pos hz]; simp
      · rw [if_neg hz]; simp
    exact hno hk
  · intro hq
    show ((Board.place_bombs rows columns bp) q).kind = CellKind.bomb
    unfold Board.place_bombs
    rw [if_pos hq]

theorem make_bomb_count (rows columns : Nat) (bp : Finset (Int × Int))
    (hsub : ∀ p ∈ bp, 0 ≤ p.1 ∧ p.1 < (rows : Int) ∧ 0 ≤ p.2 ∧ p.2 < (columns : Int)) :
    (Board.make rows columns bp).bomb_count = bp.card := by
  unfold Board.bomb_count
  congr 1
  ext q
  simp only [Finset.mem_filter, Board.mem_grid, make_cells_kind_bomb]
  constructor
  · rintro ⟨hg, hk⟩
    exact hk
  · intro hq
    exact ⟨hsub q hq, hq⟩

/-- C7: when the placer returns `bomb_count` distinct in-bounds coordinates,
the constructed board has exactly that many bomb-kind cells, and the number
is unchanged by any sequence of reveal / flag / unflag operations. -/
theorem claim_C7_bomb_count_invariant (rows columns : Nat)
    (bombs_positions : Finset (Int × Int))
    (hsub : ∀ p ∈ bombs_positions,
      0 ≤ p.1 ∧ p.1 < (rows : Int) ∧ 0 ≤ p.2 ∧ p.2 < (columns : Int))
    (ops : List BoardOp) :
    ((Board.make rows columns bombs_positions).run_ops ops).bomb_count =
      bombs_positions.card := by
  rw [bomb_count_eq_of_same_kinds (run_ops_same_kinds _ ops)]
  exact make_bomb_count rows columns bombs_positions hsub

theorem claim_C7_bomb_count_invariant_witness :
    ((Board.make 1 2 {(0, 1)}).run_ops
      [BoardOp.click 0 0, BoardOp.put_flag 0 1]).bomb_count =
      ({(0, 1)} : Finset (Int × Int)).card :=
  claim_C7_bomb_count_invariant 1 2 {(0, 1)} (by decide)
    [BoardOp.click 0 0, BoardOp.put_flag 0 1]

/-! ### Claim C9: board iteration -/

theorem range_flatMap_length {α : Type} (n m : Nat) (f : Nat → Nat → α) :
    ((List.range n).flatMap (fun r => (List.range m).map (f r))).length = n * m := by
  induction n with
  | zero => simp
  | succ n ih =>
    rw [List.range_succ, List.flatMap_append, List.length_append, ih]
    simp only [List.flatMap_cons, List.flatMap_nil, List.append_nil, List.length_map,
      List.length_range]
    ring

theorem range_flatMap_getElem {α : Type} (n m : Nat) (f : Nat → Nat → α)
    (r c : Nat) (hr : r < n) (hc : c < m) :
    ((List.range n).flatMap (fun x => (List.range m).map (f x)))[r * m + c]? =
      some (f r c) := by
  induction n with
  | zero => omega
  | succ n ih =>
    rw [List.range_succ, List.flatMap_append]
    have hlen : ((List.range n).flatMap (fun x => (List.range m).map (f x))).length = n * m :=
      range_flatMap_length n m f
    rcases Nat.lt_or_ge r n with h | h
    · rw [List.getElem?_append, if_pos]
      · exact ih h
      · rw [hlen]
        calc r * m + c < r * m + m := by omega
          _ = (r + 1) * m := by ring
          _ ≤ n * m := Nat.mul_le_mul_right m (by omega)
    · have hrn : r = n := by omega
      subst hrn
      rw [List.getElem?_append, if_neg]
      · rw [hlen]
        simp only [List.flatMap_cons, List.flatMap_nil, List.append_nil]
        rw [show r * m + c - r * m = c from by omega]
        rw [List.getElem?_map]
        rw [List.getElem?_range hc]
        rfl
      · rw [hlen]; omega

/-- C9: iterating the board yields exactly `rows * columns` triples, in
row-major order: the triple at index `r * columns + c` is
`(r, c, cells (r, c))`.  `to_triples` is a pure function of the board, so an
iteration cannot mutate it, and every evaluation restarts the same complete
traversal. -/
theorem claim_C9_iteration (b : Board) :
    b.to_triples.length = b.rows * b.columns ∧
    ∀ r c : Nat, r < b.rows → c < b.columns →
      b.to_triples[r * b.columns + c]? =
        some ((r : Int), (c : Int), b.cells ((r : Int), (c : Int))) := by
  constructor
  · unfold Board.to_triples
    exact range_flatMap_length b.rows b.columns
      (fun x y => ((x : Int), (y : Int), b.cells ((x : Int), (y : Int))))
  · intro r c hr hc
    unfold Board.to_triples
    exact range_flatMap_getElem b.rows b.columns
      (fun x y => ((x : Int), (y : Int), b.cells ((x : Int), (y : Int)))) r c hr hc

theorem claim_C9_iteration_witness :
    (Board.make 2 2 ∅).to_triples.length = 2 * 2 ∧
    (Board.make 2 2 ∅).to_triples[1 * 2 + 1]? =
      some ((1 : Int), (1 : Int), (Board.make 2 2 ∅).cells (1, 1)) :=
  ⟨(claim_C9_iteration (Board.make 2 2 ∅)).1,
   (claim_C9_iteration (Board.make 2 2 ∅)).2 1 1 (by decide) (by decide)⟩

/-! ### Claim C1: the neighbour-bomb counters -/

theorem neighbors_list_nodup (rows columns : Nat) (row column : Int) :
    (neighbors_list rows columns row column).Nodup := by
  apply List.Nodup.filter
  apply List.Nodup.product
  · simp only [List.nodup_cons, List.mem_cons, List.mem_singleton, List.not_mem_nil,
      not_or, List.nodup_nil, and_true, not_false_iff, or_false]
    omega
  · simp only [List.nodup_cons, List.mem_cons, List.mem_singleton, List.not_mem_nil,
      not_or, List.nodup_nil, and_true, not_false_iff, or_false]
    omega

theorem mem_neighbors_list_iff (rows columns : Nat) (row column : Int) (q : Int × Int) :
    q ∈ neighbors_list rows columns row column ↔
      ((0 ≤ q.1 ∧ q.1 < (rows : Int) ∧ 0 ≤ q.2 ∧ q.2 < (columns : Int)) ∧
        q ≠ (row, column) ∧ (q.1 - row).natAbs ≤ 1 ∧ (q.2 - column).natAbs ≤ 1) := by
  obtain ⟨x, y⟩ := q
  rw [show neighbors_list rows columns row column =
    ((([row - 1, row, row + 1] : List Int) ×ˢ [column - 1, column, column + 1]).filter
      (fun p => decide (0 ≤ p.1 ∧ p.1 < (rows : Int)) &&
        decide (0 ≤ p.2 ∧ p.2 < (columns : Int)) && decide (p ≠ (row, column)))) from rfl]
  simp only [List.mem_filter, List.mem_product, List.mem_cons,
    List.mem_singleton, List.not_mem_nil, or_false, Bool.and_eq_true, decide_eq_true_eq,
    Ne, Prod.mk.injEq, not_and]
  constructor
  · rintro ⟨⟨hx, hy⟩, ⟨⟨h1, h2⟩, h3⟩⟩
    refine ⟨⟨?_, ?_, ?_, ?_⟩, ?_, ?_, ?_⟩ <;> omega
  · rintro ⟨⟨h1, h2, h3, h4⟩, h5, h6, h7⟩
    refine ⟨⟨?_, ?_⟩, ⟨⟨?_, ?_⟩, ?_⟩⟩ <;> omega

theorem spec_count_eq (rows columns : Nat) (bp : Finset (Int × Int)) (p : Int × Int) :
    (neighbors_list rows columns p.1 p.2).countP (fun q => decide (q ∈ bp)) =
      ((spec_neighborhood (Board.make rows columns bp) p).filter (fun q => q ∈ bp)).card := by
  rw [List.countP_eq_length_filter]
  rw [← List.toFinset_card_of_nodup ((neighbors_list_nodup rows columns p.1 p.2).filter _)]
  congr 1
  rw [List.toFinset_filter]
  ext q
  simp only [Finset.mem_filter, List.mem_toFinset, decide_eq_true_eq]
  constructor
  · rintro ⟨hq, hb⟩
    rw [mem_neighbors_list_iff] at hq
    refine ⟨?_, hb⟩
    unfold spec_neighborhood
    rw [Finset.mem_filter, Board.mem_grid]
    exact ⟨hq.1, hq.2⟩
  · rintro ⟨hq, hb⟩
    unfold spec_neighborhood at hq
    rw [Finset.mem_filter, Board.mem_grid] at hq
    refine ⟨?_, hb⟩
    rw [mem_neighbors_list_iff]
    exact ⟨hq.1, hq.2⟩

theorem spec_filter_bomb_eq (rows columns : Nat) (bp : Finset (Int × Int)) (p : Int × Int) :
    (spec_neighborhood (Board.make rows columns bp) p).filter
      (fun q => ((Board.make rows columns bp).cells q).kind = CellKind.bomb) =
    (spec_neighborhood (Board.make rows columns bp) p).filter (fun q => q ∈ bp) := by
  apply Finset.filter_congr
  intro q hq
  rw [make_cells_kind_bomb]

/-- C1: in a constructed board, every non-bomb coordinate's cell carries
exactly the number of bomb-kind cells in its valid 8-neighbourhood
(orthogonal + diagonal, clipped to bounds, excluding itself, recomputed here
by the independent brute-force `spec_neighborhood` scan), and is classified
`empty` when that count is 0 and `numbered` with the count otherwise. -/
theorem claim_C1_neighbor_counts (rows columns : Nat)
    (bombs_positions : Finset (Int × Int)) (p : Int × Int)
    (_hv : 0 ≤ p.1 ∧ p.1 < (rows : Int) ∧ 0 ≤ p.2 ∧ p.2 < (columns : Int))
    (hnb : p ∉ bombs_positions) :
    (((spec_neighborhood (Board.make rows columns bombs_positions) p).filter
        (fun q => ((Board.make rows columns bombs_positions).cells q).kind =
          CellKind.bomb)).card = 0 →
      (Board.make rows columns bombs_positions).cells p =
        { kind := CellKind.empty, flagged := false, clicked := false }) ∧
    ∀ n : Nat, n ≠ 0 →
      ((spec_neighborhood (Board.make rows columns bombs_positions) p).filter
        (fun q => ((Board.make rows columns bombs_positions).cells q).kind =
          CellKind.bomb)).card = n →
      (Board.make rows columns bombs_positions).cells p =
        { kind := CellKind.numbered n, flagged := false, clicked := false } := by
  have hcell : (Board.make rows columns bombs_positions).cells p =
      build_plain_cell ((neighbors_list rows columns p.1 p.2).countP
        (fun q => decide (q ∈ bombs_positions))) := by
    show (Board.place_bombs rows columns bombs_positions) p = _
    unfold Board.place_bombs
    rw [if_neg hnb]
  have hcount : (neighbors_list rows columns p.1 p.2).countP
      (fun q => decide (q ∈ bombs_positions)) =
      ((spec_neighborhood (Board.make rows columns bombs_positions) p).filter
        (fun q => ((Board.make rows columns bombs_positions).cells q).kind =
          CellKind.bomb)).card := by
    rw [spec_count_eq rows columns bombs_positions p, spec_filter_bomb_eq]
  constructor
  · intro h0
    rw [hcell, hcount, h0]
    rfl
  · intro n hn h0
    rw [hcell, hcount, h0]
    unfold build_plain_cell
    rw [if_neg hn]

theorem claim_C1_neighbor_counts_witness :
    (Board.make 2 2 {(0, 0)}).cells (1, 1) =
      { kind := CellKind.numbered 1, flagged := false, clicked := false } :=
  (claim_C1_neighbor_counts 2 2 {(0, 0)} (1, 1) (by decide) (by decide)).2 1
    (by decide) (by decide)

/-! ### Claim C3: the empty-region flood -/

theorem no_flags_evolves {b b' : Board} (h : Evolves b b') (hf : NoFlags b) : NoFlags b' :=
  fun p => by rw [(h.2.2 p).2.1]; exact hf p

theorem get_neighbors_eq_of_dims {b b' : Board} (h1 : b'.rows = b.rows)
    (h2 : b'.columns = b.columns) (x y : Int) :
    b'.get_neighbors x y = b.get_neighbors x y := by
  unfold Board.get_neighbors
  rw [h1, h2]

theorem valid_of_dims {b b' : Board} (h1 : b'.rows = b.rows) (h2 : b'.columns = b.columns)
    {x y : Int} (h : (b.is_valid_row x && b.is_valid_column y) = true) :
    (b'.is_valid_row x && b'.is_valid_column y) = true := by
  unfold Board.is_valid_row Board.is_valid_column
  rw [h1, h2]
  exact h

theorem neighbors_valid {b : Board} {row column : Int} {q : Int × Int}
    (h : q ∈ b.get_neighbors row column) :
    (b.is_valid_row q.1 && b.is_valid_column q.2) = true := by
  rw [Board.get_neighbors, mem_neighbors_list_iff] at h
  simp only [Board.is_valid_row, Board.is_valid_column, Bool.and_eq_true, decide_eq_true_eq]
  exact ⟨⟨h.1.1, h.1.2.1⟩, h.1.2.2.1, h.1.2.2.2⟩

theorem click_fuel_flood : ∀ (fuel : Nat) (b : Board) (row column : Int)
    (S : Set (Int × Int)),
    NoFlags b → b.unclicked_count ≤ fuel →
    (b.is_valid_row row && b.is_valid_column column) = true →
    ClosedExcept b S →
    ((click_fuel fuel b row column).cells (row, column)).clicked = true ∧
    ClosedExcept (click_fuel fuel b row column) S := by
  intro fuel
  induction fuel with
  | zero =>
    intro b row column S _ h0 hv hcl
    exact ⟨all_clicked_of_unclicked_count_zero b (Nat.le_zero.mp h0) _
      (valid_mem_grid b row column hv), hcl⟩
  | succ fuel ih =>
    intro b row column S hnf hfuel hv hcl
    by_cases hc : (b.cells (row, column)).clicked = true
    · rw [click_fuel_clicked (fuel + 1) b row column hc]
      exact ⟨hc, hcl⟩
    · have hcf : (b.cells (row, column)).clicked = false := bool_not_true hc
      simp only [click_fuel]
      rw [if_pos hv, if_neg (by rw [hnf (row, column)]; simp), if_neg hc]
      obtain ⟨b1, hb1⟩ : ∃ b1, b.set_cell (row, column)
          { kind := (b.cells (row, column)).kind,
            flagged := (b.cells (row, column)).flagged, clicked := true } = b1 := ⟨_, rfl⟩
      rw [hb1]
      have hev1 : Evolves b b1 := by
        rw [← hb1]; exact evolves_set_clicked b (row, column)
      have hb1rows : b1.rows = b.rows := hev1.1
      have hb1cols : b1.columns = b.columns := hev1.2.1
      have hb1cells_self : b1.cells (row, column) =
          { kind := (b.cells (row, column)).kind,
            flagged := (b.cells (row, column)).flagged, clicked := true } := by
        rw [← hb1]; simp [Board.set_cell]
      have hb1cells_other : ∀ p, p ≠ (row, column) → b1.cells p = b.cells p := by
        intro p hp
        rw [← hb1]
        simp [Board.set_cell, hp]
      have hnf1 : NoFlags b1 := no_flags_evolves hev1 hnf
      have hfuel1 : b1.unclicked_count ≤ fuel := by
        have := unclicked_count_set_clicked b (row, column)
          (valid_mem_grid b row column hv) hcf
        rw [hb1] at this
        omega
      have hcl1 : ClosedExcept b1 (insert (row, column) S) := by
        intro p hpS hpc hpk q hq
        have hp : p ≠ (row, column) := fun he => hpS (by rw [he]; exact Set.mem_insert _ S)
        have hpS2 : p ∉ S := fun hin => hpS (Set.mem_insert_of_mem _ hin)
        rw [hb1cells_other p hp] at hpc hpk
        have hq2 : q ∈ b.get_neighbors p.1 p.2 := by
          rwa [get_neighbors_eq_of_dims hb1rows hb1cols] at hq
        have hbq := hcl p hpS2 hpc hpk q hq2
        by_cases hqrc : q = (row, column)
        · subst hqrc
          rw [hb1cells_self]
        · rw [hb1cells_other q hqrc]
          exact hbq
      by_cases hk : (b.cells (row, column)).kind = CellKind.empty
      · rw [if_pos hk]
        have hfold : ∀ (l : List (Int × Int)),
            (∀ q ∈ l, (b.is_valid_row q.1 && b.is_valid_column q.2) = true) →
            ∀ bb, bb.rows = b.rows → bb.columns = b.columns → NoFlags bb →
              bb.unclicked_count ≤ fuel → ClosedExcept bb (insert (row, column) S) →
              (∀ q ∈ l, ((l.foldl (fun x q2 => click_fuel fuel x q2.1 q2.2) bb).cells
                q).clicked = true) ∧
              ClosedExcept (l.foldl (fun x q2 => click_fuel fuel x q2.1 q2.2) bb)
                (insert (row, column) S) ∧
              Evolves bb (l.foldl (fun x q2 => click_fuel fuel x q2.1 q2.2) bb) := by
          intro l
          induction l with
          | nil =>
            intro _ bb _ _ _ _ hclbb
            exact ⟨fun q hq => absurd hq (List.not_mem_nil q), hclbb, evolves_refl bb⟩
          | cons q l ihl =>
            intro hlv bb hrows hcols hnfb hfbb hclbb
            have hvq : (bb.is_valid_row q.1 && bb.is_valid_column q.2) = true :=
              valid_of_dims hrows hcols (hlv q (List.mem_cons_self q l))
            have hstep := ih bb q.1 q.2 (insert (row, column) S) hnfb hfbb hvq hclbb
            have hevstep : Evolves bb (click_fuel fuel bb q.1 q.2) :=
              evolves_click_fuel fuel bb q.1 q.2
            have htail := ihl (fun q2 hq2 => hlv q2 (List.mem_cons_of_mem q hq2))
              (click_fuel fuel bb q.1 q.2)
              (hevstep.1.trans hrows) (hevstep.2.1.trans hcols)
              (no_flags_evolves hevstep hnfb)
              (le_trans (unclicked_le_of_evolves hevstep) hfbb)
              hstep.2
            simp only [List.foldl_cons]
            refine ⟨?_, htail.2.1, evolves_trans hevstep htail.2.2⟩
            intro q2 hq2
            rcases List.mem_cons.mp hq2 with hq2 | hq2
            · subst hq2
              exact (htail.2.2.2.2 q2).2.2 hstep.1
            · exact htail.1 q2 hq2
        have hnbv : ∀ q ∈ b.get_neighbors row column,
            (b.is_valid_row q.1 && b.is_valid_column q.2) = true :=
          fun q hq => neighbors_valid hq
        have hres := hfold (b.get_neighbors row column) hnbv b1 hb1rows hb1cols hnf1
          hfuel1 hcl1
        refine ⟨(hres.2.2.2.2 (row, column)).2.2 (by rw [hb1cells_self]), ?_⟩
        intro p hpS hpc hpk q hq
        by_cases hp : p = (row, column)
        · subst hp
          have hq2 : q ∈ b.get_neighbors row column := by
            rw [get_neighbors_eq_of_dims (hres.2.2.1.trans hb1rows)
              (hres.2.2.2.1.trans hb1cols)] at hq
            exact hq
          exact hres.1 q hq2
        · have hpS2 : p ∉ insert (row, column) S := by
            simp only [Set.mem_insert_iff, not_or]
            exact ⟨hp, hpS⟩
          exact hres.2.1 p hpS2 hpc hpk q hq
      · rw [if_neg hk]
        refine ⟨by rw [hb1cells_self], ?_⟩
        intro p hpS hpc hpk q hq
        by_cases hp : p = (row, column)
        · subst hp
          rw [hb1cells_self] at hpk
          exact absurd hpk hk
        · rw [hb1cells_other p hp] at hpc hpk
          have hq2 : q ∈ b.get_neighbors p.1 p.2 := by
            rwa [get_neighbors_eq_of_dims hb1rows hb1cols] at hq
          have hbq := hcl p hpS hpc hpk q hq2
          by_cases hqrc : q = (row, column)
          · subst hqrc
            rw [hb1cells_self]
          · rw [hb1cells_other q hqrc]
            exact hbq

theorem empty_reach_valid {b : Board} {row column : Int} {q : Int × Int}
    (hv : (b.is_valid_row row && b.is_valid_column column) = true)
    (h : EmptyReach b (row, column) q) :
    (b.is_valid_row q.1 && b.is_valid_column q.2) = true := by
  induction h with
  | refl => exact hv
  | tail hab hbc ih => exact neighbors_valid hbc.2.2

theorem empty_reach_kind {b : Board} {row column : Int} {q : Int × Int}
    (hk : (b.cells (row, column)).kind = CellKind.empty)
    (h : EmptyReach b (row, column) q) :
    (b.cells q).kind = CellKind.empty := by
  induction h with
  | refl => exact hk
  | tail hab hbc ih => exact hbc.2.1

/-- C3 as stated is violated once a flag is involved: on the 1×1 bomb-free
board whose single cell is empty but flagged, the connected empty region of
`(0,0)` contains `(0,0)` itself (so it has size `k = 1`), yet revealing
`(0,0)` is suppressed — the click returns the board unchanged and the cell
stays hidden, so strictly fewer than `k` cells transition to revealed. -/
theorem claim_C3_flood_counterexample :
    (((Board.make 1 1 ∅).apply_op (BoardOp.put_flag 0 0)).cells (0, 0)).kind =
      CellKind.empty ∧
    EmptyReach ((Board.make 1 1 ∅).apply_op (BoardOp.put_flag 0 0)) (0, 0) (0, 0) ∧
    ((Board.make 1 1 ∅).apply_op (BoardOp.put_flag 0 0)).click 0 0 =
      Except.ok ((Board.make 1 1 ∅).apply_op (BoardOp.put_flag 0 0)) ∧
    ((((Board.make 1 1 ∅).apply_op (BoardOp.put_flag 0 0)).cells (0, 0)).clicked =
      false) := by
  exact ⟨by decide, Relation.ReflTransGen.refl, rfl, by decide⟩

/-- C3 (amended): starting from a board in its freshly constructed state —
every cell hidden and unflagged — revealing a valid coordinate holding an
empty cell reveals every cell of its connected empty region and every
neighbour of the region (in particular its numbered border cells), so at
least `k` cells transition from hidden to revealed when the region has `k`
cells; and revealing a numbered or bomb cell changes no other cell, so the
cascade never propagates past them.  The amendment adds the all-hidden,
all-unflagged hypotheses, which `claim_C3_flood_counterexample` shows are
necessary. -/
theorem claim_C3_flood_reveal (b : Board) (row column : Int) (b1 : Board)
    (hv : (b.is_valid_row row && b.is_valid_column column) = true)
    (hflags : NoFlags b)
    (hhidden : ∀ p, (b.cells p).clicked = false)
    (hclick : b.click row column = Except.ok b1) :
    ((b.cells (row, column)).kind = CellKind.empty →
      (∀ q, EmptyReach b (row, column) q → (b1.cells q).clicked = true) ∧
      (∀ p q, EmptyReach b (row, column) p → q ∈ b.get_neighbors p.1 p.2 →
        (b1.cells q).clicked = true) ∧
      ∀ R : Finset (Int × Int), (∀ q ∈ R, EmptyReach b (row, column) q) →
        R.card ≤ (b1.grid.filter (fun p => (b1.cells p).clicked = true)).card) ∧
    ((b.cells (row, column)).kind ≠ CellKind.empty →
      ∀ p, p ≠ (row, column) → b1.cells p = b.cells p) := by
  have hb1 := click_ok_result hclick
  have hev : Evolves b b1 := click_ok_evolves hclick
  have hcl0 : ClosedExcept b ∅ := by
    intro p _ hpc _ q _
    rw [hhidden p] at hpc
    exact absurd hpc (by simp)
  have hflood := click_fuel_flood b.unclicked_count b row column ∅ hflags le_rfl hv hcl0
  rw [← hb1] at hflood
  constructor
  · intro hk
    have hreach_clicked : ∀ q, EmptyReach b (row, column) q →
        (b1.cells q).clicked = true := by
      intro q hreach
      induction hreach with
      | refl => exact hflood.1
      | tail hab hbc ihq =>
        refine hflood.2 _ (Set.not_mem_empty _) ihq ?_ _ ?_
        · rw [(hev.2.2 _).1]
          exact hbc.1
        · rw [get_neighbors_eq_of_dims hev.1 hev.2.1]
          exact hbc.2.2
    refine ⟨hreach_clicked, ?_, ?_⟩
    · intro p q hreach hq
      have hpk : (b.cells p).kind = CellKind.empty := empty_reach_kind hk hreach
      refine hflood.2 p (Set.not_mem_empty _) (hreach_clicked p hreach) ?_ q ?_
      · rw [(hev.2.2 p).1]
        exact hpk
      · rw [get_neighbors_eq_of_dims hev.1 hev.2.1]
        exact hq
    · intro R hR
      apply Finset.card_le_card
      intro q hqR
      rw [Finset.mem_filter]
      constructor
      · have hvq := empty_reach_valid hv (hR q hqR)
        rw [grid_eq_of_evolves hev, Board.mem_grid]
        simp only [Bool.and_eq_true, Board.is_valid_row, Board.is_valid_column,
          decide_eq_true_eq] at hvq
        exact ⟨hvq.1.1, hvq.1.2, hvq.2.1, hvq.2.2⟩
      · exact hreach_clicked q (hR q hqR)
  · intro hk p hp
    rw [hb1]
    obtain ⟨n, hn⟩ : ∃ n, b.unclicked_count = n + 1 := by
      have h1 : 1 ≤ b.unclicked_count :=
        one_le_unclicked_count b (row, column) (valid_mem_grid b row column hv)
          (hhidden _)
      exact ⟨b.unclicked_count - 1, by omega⟩
    rw [hn]
    simp only [click_fuel]
    rw [if_pos hv, if_neg (by rw [hflags (row, column)]; simp),
      if_neg (by rw [hhidden (row, column)]; simp), if_neg hk]
    simp [Board.set_cell, hp]

theorem claim_C3_flood_reveal_witness :
    ({((0 : Int), (0 : Int)), ((0 : Int), (1 : Int))} : Finset (Int × Int)).card ≤
      ((((Board.make 1 2 ∅).apply_op (BoardOp.click 0 0)).grid.filter
        (fun p => (((Board.make 1 2 ∅).apply_op (BoardOp.click 0 0)).cells p).clicked =
          true)).card) := by
  have h := claim_C3_flood_reveal (Board.make 1 2 ∅) 0 0
    ((Board.make 1 2 ∅).apply_op (BoardOp.click 0 0)) (by decide)
    (fun p => make_cells_unflagged 1 2 ∅ p)
    (fun p => make_cells_unclicked 1 2 ∅ p) rfl
  apply (h.1 (by decide)).2.2
  intro q hq
  rw [Finset.mem_insert, Finset.mem_singleton] at hq
  rcases hq with hq | hq
  · subst hq
    exact Relation.ReflTransGen.refl
  · subst hq
    exact Relation.ReflTransGen.tail Relation.ReflTransGen.refl
      ⟨by decide, by decide, by decide⟩
